import Mathlib

set_option maxHeartbeats 1000000

namespace Pypeliner

/-!
Shallow embedding of the pypeliner workflow engine core
(pypeliner/helpers.py, pypeliner/jobs.py, pypeliner/scheduler.py).

The code is Python 2: `None` compares strictly below every number, dicts are
modelled as association lists whose order is the iteration order, exceptions
are modelled with `Option`/`Except`, and the filesystem is modelled as an
association list from filename to file data.
-/

/-! ## helpers.py -/

/-- Embeds `helpers.pop_if`: scans `L` for the first element satisfying `pred`,
removes it in place and returns it.  The embedding returns the popped element
together with the remaining list; `none` models the `IndexError` raised when no
element matches (in which case the Python list is left unchanged). -/
def pop_if {α : Type} (L : List α) (pred : α → Bool) : Option (α × List α) :=
  match L with
  | [] => none
  | x :: xs =>
    if pred x then some (x, xs)
    else (pop_if xs pred).map (fun p => (p.1, x :: p.2))

/-- Contents and modification time of one file on disk. -/
structure FileData where
  contents : List Nat
  mtime : Int
deriving DecidableEq

/-- A filesystem fragment: association list from filename to file data.  A
missing entry models a file that cannot be opened for reading (`IOError`). -/
abbrev FS : Type := List (String × FileData)

/-- First entry for `name`, mirroring a filesystem path lookup. -/
def fsLookup : FS → String → Option FileData
  | [], _ => none
  | (k, v) :: rest, name => if k = name then some v else fsLookup rest name

/-- Remove every entry for `name`. -/
def fsErase : FS → String → FS
  | [], _ => []
  | (k, v) :: rest, name =>
    if k = name then fsErase rest name else (k, v) :: fsErase rest name

/-- Embeds `os.rename(src, dst)`: moves the file at `src` over `dst`,
preserving the moved file's data (contents and mtime); `none` models the
`OSError` raised when `src` does not exist. -/
def os_rename (fs : FS) (src dst : String) : Option FS :=
  match fsLookup fs src with
  | none => none
  | some fd => some ((dst, fd) :: fsErase (fsErase fs src) dst)

/-- Embeds `helpers.md5_file`, with the digest function a parameter: returns
the digest of the file's contents, or `none` when the file cannot be read
(`IOError`). -/
def md5_file (md5 : List Nat → List Nat) (fs : FS) (filename : String) :
    Option (List Nat) :=
  match fsLookup fs filename with
  | none => none
  | some fd => some (md5 fd.contents)

/-- Embeds `helpers.overwrite_if_different`: `do_copy` starts `True`; Python
evaluates `md5_file(existing_filename) != md5_file(new_filename)` inside a
`try`, so an `IOError` from either read leaves `do_copy` at `True`; the rename
happens iff `do_copy` holds.  `none` models `os.rename` failing because the
new file is missing. -/
def overwrite_if_different (md5 : List Nat → List Nat) (fs : FS)
    (new_filename existing_filename : String) : Option FS :=
  let do_copy : Bool :=
    match md5_file md5 fs existing_filename with
    | none => true
    | some existing_digest =>
      match md5_file md5 fs new_filename with
      | none => true
      | some new_digest => decide (existing_digest ≠ new_digest)
  if do_copy then os_rename fs new_filename existing_filename else some fs

/-! ## jobs.py: out-of-date computation

Resource creation times are `Option Int`: `none` is Python `None` (unknown
mtime).  Python 2 orders `None` strictly below every number. -/

/-- Python 2 ordering on possibly-`None` timestamps: `None` is below every
number. -/
def py2_lt : Option Int → Option Int → Bool
  | none, none => false
  | none, some _ => true
  | some _, none => false
  | some a, some b => decide (a < b)

/-- Python `max` of two values (keeps the first argument on ties). -/
def py2_max (a b : Option Int) : Option Int := if py2_lt a b then b else a

/-- Python `min` of two values (keeps the first argument on ties). -/
def py2_min (a b : Option Int) : Option Int := if py2_lt b a then b else a

/-- Python `max(list)`; Python raises `ValueError` on an empty list, which the
sole caller converts to `None` (`jobs.explain_out_of_date`), so the embedding
returns `none` there. -/
def py_max_list : List (Option Int) → Option Int
  | [] => none
  | x :: xs => xs.foldl py2_max x

/-- Python `min(list)`; `none` on the empty list as in `py_max_list`. -/
def py_min_list : List (Option Int) → Option Int
  | [] => none
  | x :: xs => xs.foldl py2_min x

/-- The part of a `JobInstance` that `out_of_date` and `explain_out_of_date`
read: the createtimes of its input resources and output resources, and its
`is_required_downstream` flag. -/
structure JobStaleness where
  input_dates : List (Option Int)
  output_dates : List (Option Int)
  is_required_downstream : Bool
deriving DecidableEq

/-- Embeds `JobInstance.out_of_date` (jobs.py lines 116-123): always run when
either date list is empty; out of date when some output date is `None`; else
compare `max(input_dates) > min(output_dates)`. -/
def out_of_date (j : JobStaleness) : Bool :=
  if j.input_dates.length = 0 ∨ j.output_dates.length = 0 then true
  else if none ∈ j.output_dates then true
  else py2_lt (py_min_list j.output_dates) (py_max_list j.input_dates)

/-- Embeds the headline (first explanation line) chosen by
`JobInstance.explain_out_of_date` (jobs.py lines 127-148); the per-resource
detail lines that the method appends afterwards are not modelled. -/
def explain_out_of_date_headline (j : JobStaleness) : String :=
  if j.input_dates.length = 0 ∧ j.output_dates.length = 0 then
    "no inputs/outputs: always run"
  else if j.input_dates.length = 0 then "no inputs: always run"
  else if j.output_dates.length = 0 then "no outputs: always run"
  else if none ∈ j.output_dates then "missing outputs"
  else if py2_lt (py_min_list j.output_dates) (py_max_list j.input_dates) then
    "out of date outputs"
  else if j.is_required_downstream then "outputs required by downstream job"
  else "up to date"

/-! ## jobs.py: retry

`JobInstance.retry` (jobs.py lines 197-209) reads `retry_idx` and the `ctx`
dict.  The dict is an association list whose order is the (deterministic but
arbitrary) Python 2 iteration order; keys are unique.  Context values are
modelled as integers. -/

/-- A Python dict of context values. -/
abbrev Ctx : Type := List (String × Int)

/-- Python `key.endswith(suffix)` (character-wise). -/
def py_endswith (s suffix : String) : Bool := suffix.data.isSuffixOf s.data

/-- Python `key[:-n]` for `0 < n ≤ len(key)` (character-wise). -/
def py_dropright (s : String) (n : Nat) : String :=
  String.mk (s.data.take (s.data.length - n))

/-- Python dict lookup `ctx[key]`: first entry for `key`; `none` models
`KeyError`. -/
def ctx_lookup : Ctx → String → Option Int
  | [], _ => none
  | (k, v) :: rest, key => if k = key then some v else ctx_lookup rest key

/-- Python `ctx.get(key, dflt)`. -/
def ctx_get (ctx : Ctx) (key : String) (dflt : Int) : Int :=
  match ctx_lookup ctx key with
  | some v => v
  | none => dflt

/-- Python `ctx[key] = v` for a key already present: replaces the entry in
place (dict order is unchanged). -/
def ctx_set (ctx : Ctx) (key : String) (v : Int) : Ctx :=
  ctx.map (fun p => if p.1 = key then (key, v) else p)

/-- The two suffixes recognised by `retry`. -/
def factorSuffix : String := "_retry_factor"

/-- The increment suffix recognised by `retry`. -/
def incrementSuffix : String := "_retry_increment"

/-- The body of the `for key, value in self.ctx.iteritems()` loop for one
`(key, value)` pair: multiply or increment the base entry.  `none` models the
`KeyError` raised when the base key is absent.  Returns the new dict and
whether this key set `updated = True`. -/
def retry_step (ctx : Ctx) (key : String) (value : Int) : Option (Ctx × Bool) :=
  if py_endswith key factorSuffix then
    let base := py_dropright key factorSuffix.data.length
    match ctx_lookup ctx base with
    | none => none
    | some bv => some (ctx_set ctx base (bv * value), true)
  else if py_endswith key incrementSuffix then
    let base := py_dropright key incrementSuffix.data.length
    match ctx_lookup ctx base with
    | none => none
    | some bv => some (ctx_set ctx base (bv + value), true)
  else some (ctx, false)

/-- The `retry` loop over the dict's key sequence.  Python iterates the live
dict, so each `value` is looked up in the current dict (only values of
already-present keys are ever mutated, so the key sequence is stable). -/
def retry_loop (keys : List String) (ctx : Ctx) (updated : Bool) :
    Option (Ctx × Bool) :=
  match keys with
  | [] => some (ctx, updated)
  | k :: ks =>
    match ctx_lookup ctx k with
    | none => none
    | some v =>
      match retry_step ctx k v with
      | none => none
      | some (ctx', upd) => retry_loop ks ctx' (updated || upd)

/-- The mutable per-job state read and written by `JobInstance.retry`. -/
structure RetryState where
  retry_idx : Int
  ctx : Ctx
deriving DecidableEq

/-- Embeds `JobInstance.retry` (jobs.py lines 197-209).  Returns the boolean
result together with the updated state; `none` models a `KeyError` escaping
the loop (a `<base>_retry_factor` / `<base>_retry_increment` key whose base is
absent). -/
def retry (s : RetryState) : Option (Bool × RetryState) :=
  if s.retry_idx ≥ ctx_get s.ctx "num_retry" 0 then some (false, s)
  else
    match retry_loop (s.ctx.map Prod.fst) s.ctx false with
    | none => none
    | some (ctx', updated) => some (updated, ⟨s.retry_idx + 1, ctx'⟩)

/-- Whether `key` takes either of the two retry suffixes (checked in the same
order as the code: factor first). -/
def isRetryKey (key : String) : Bool :=
  py_endswith key factorSuffix || py_endswith key incrementSuffix

/-- The base metric name of a retry key. -/
def retryBase (key : String) : String :=
  if py_endswith key factorSuffix then py_dropright key factorSuffix.data.length
  else py_dropright key incrementSuffix.data.length

/-- A well-formed retry context, matching the documented
`<metric>` / `<metric>_retry_factor` / `<metric>_retry_increment` layout:
keys are unique (it is a dict), every retry key's base metric is present and
is itself a plain metric name, and no metric carries two retry keys (Python 2
dict iteration order is arbitrary, so with both a factor and an increment on
one metric the final value would be unspecified). -/
@[reducible] def GoodCtx (ctx : Ctx) : Prop :=
  (ctx.map Prod.fst).Nodup ∧
  (∀ k ∈ ctx.map Prod.fst, isRetryKey k = true →
    retryBase k ∈ ctx.map Prod.fst ∧ isRetryKey (retryBase k) = false) ∧
  (∀ k ∈ ctx.map Prod.fst, ∀ k' ∈ ctx.map Prod.fst,
    isRetryKey k = true → isRetryKey k' = true →
    retryBase k = retryBase k' → k = k')

/-! ## jobs.py: JobCallable and scheduler wait step -/

/-- Which of the steps inside `JobCallable.__call__`'s `try` block complete
without raising: argument resolution (`deeptransform`/`resolve_arg`), `pull`,
the user function call (with the `ret` assignment), and `push`. -/
structure CallEvents where
  resolve_ok : Bool
  pull_ok : Bool
  func_ok : Bool
  push_ok : Bool
deriving DecidableEq

/-- Embeds the `finished` flag after `JobCallable.__call__` (jobs.py lines
273-292): `finished` starts `False` and is set `True` only after resolve,
pull, the user function, and push all return; the bare `except` swallows the
exception, leaving `finished` as `False`.  The short-circuit conjunction
mirrors the try block aborting at the first raise. -/
def jobCall_finished (ev : CallEvents) : Bool :=
  ev.resolve_ok && ev.pull_ok && ev.func_ok && ev.push_ok

/-- What `Scheduler._wait_next_job` does with the received callable. -/
inductive WaitNextAction : Type
  | raiseIncomplete
  | finalizeComplete
deriving DecidableEq

/-- Embeds the branch of `Scheduler._wait_next_job` (scheduler.py lines
161-167) on the received callable's `finished` flag: an unfinished callable
raises `IncompleteJobException` at once; a finished one is finalized and
completed. -/
def wait_next_job (received_finished : Bool) : WaitNextAction :=
  if received_finished then .finalizeComplete else .raiseIncomplete

/-! ## scheduler.py: Scheduler.__setattr__ freeze -/

/-- Names defined on the `Scheduler` class itself (methods and properties),
visible to `hasattr` on every instance. -/
def scheduler_class_attrs : List String :=
  ["set_pipeline_dir", "db_dir", "nodes_dir", "temps_dir", "logs_dir",
   "run", "_add_jobs", "_wait_next_job", "PipelineLock", "pretend"]

/-- The class attributes that are data descriptors (properties with setters);
assigning them runs the setter instead of writing the instance dict. -/
def scheduler_properties : List String := ["db_dir", "temps_dir", "logs_dir"]

/-- Python `attr.startswith(pre)` (character-wise). -/
def py_startswith (s pre : String) : Bool := pre.data.isPrefixOf s.data

/-- Python `hasattr(self, attr)` for a scheduler whose instance dict holds
`inst`. -/
def py_hasattr (inst : List String) (attr : String) : Bool :=
  attr ∈ scheduler_class_attrs || attr ∈ inst

/-- Python `getattr(self, "freeze", False)`: the only assignment to `freeze`
in the program is `self.freeze = True` at the end of `__init__`, so its value
is `True` exactly when the attribute is present. -/
def getattr_freeze (inst : List String) : Bool := "freeze" ∈ inst

/-- Embeds `Scheduler.__setattr__` (scheduler.py lines 56-59) acting on the
set of instance-attribute names: `none` models the
`AttributeError("Setting new attribute")`; otherwise
`super().__setattr__` stores the value — into the instance dict for a plain
name, or through the property setter (which stores the underscored twin) for
a property name. -/
def scheduler_setattr (inst : List String) (attr : String) :
    Option (List String) :=
  if !py_startswith attr "_" && getattr_freeze inst && !py_hasattr inst attr
  then none
  else some (if attr ∈ scheduler_properties then inst
             else if attr ∈ inst then inst else inst ++ [attr])

/-- The sequence of `__setattr__` calls performed while `Scheduler.__init__`
runs (scheduler.py lines 46-54): direct assignments, then
`set_pipeline_dir('./')` whose three property assignments each trigger the
setter's underscored assignment, then `freeze = True`. -/
def scheduler_init_setattrs : List String :=
  ["_logger", "max_jobs", "rerun", "repopulate", "cleanup", "prune",
   "db_dir", "_db_dir", "temps_dir", "_temps_dir", "logs_dir", "_logs_dir",
   "freeze"]

/-- The instance-attribute names after `Scheduler.__init__`, obtained by
folding the `__setattr__` embedding over the init sequence starting from an
empty instance dict. -/
def scheduler_post_init : Option (List String) :=
  scheduler_init_setattrs.foldl
    (fun acc a => acc.bind (fun inst => scheduler_setattr inst a)) (some [])

/-! ## scheduler.py: Scheduler.run control loop and pipeline lock

`_add_jobs` and `_wait_next_job` interact with the external execution queue;
their outcomes are oracles.  The queue is abstracted to its length.  One call
to `_wait_next_job` always removes one job from the queue (`exec_queue.wait()`
pops the completed job before `finished` is checked), and may then raise. -/

/-- Outcome of one `_add_jobs` call: `submitted` jobs were added to the queue
and then the call returned (`ok`), raised an `Exception` (`exc`), or raised
`KeyboardInterrupt` (`intr`). -/
structure AddEv where
  submitted : Nat
  raised : Option Bool  -- none: returned; some false: Exception; some true: KeyboardInterrupt
deriving DecidableEq

/-- Outcome of one `_wait_next_job` call (after it removed one job from the
queue): returned normally, raised an `Exception` (e.g.
`IncompleteJobException`), or raised `KeyboardInterrupt`. -/
inductive WaitEv : Type
  | ok
  | exc
  | intr
deriving DecidableEq

/-- Observable action performed by the loop: a `_add_jobs` call that submitted
`n` jobs, or a `_wait_next_job` call. -/
inductive Act : Type
  | submit (n : Nat)
  | waitJob
deriving DecidableEq

/-- How the first `try` block of `Scheduler.run` (scheduler.py lines 118-128)
ends: the `while True` loop broke with the queue empty (`completed`), an
`Exception` was caught setting `failing = True` with `q` jobs left in the
queue (`failing`), a `KeyboardInterrupt` escaped (`interrupted`), or the
oracle script ran out (`fuelOut`, a model artifact for non-termination). -/
inductive Phase1End : Type
  | completed
  | failing (q : Nat)
  | interrupted
  | fuelOut (q : Nat)
deriving DecidableEq

/-- The `while True: _add_jobs(); if empty: break; _wait_next_job()` loop with
queue length `q`, consuming one `(AddEv × WaitEv)` oracle pair per iteration.
Also records the trace of submit/wait actions performed. -/
def phase1 : List (AddEv × WaitEv) → Nat → Phase1End × List Act
  | [], q => (.fuelOut q, [])
  | (a, w) :: rest, q =>
    match a.raised with
    | some true => (.interrupted, [.submit a.submitted])
    | some false => (.failing (q + a.submitted), [.submit a.submitted])
    | none =>
      let q1 := q + a.submitted
      if q1 = 0 then (.completed, [.submit a.submitted])
      else
        match w with
        | .intr => (.interrupted, [.submit a.submitted, .waitJob])
        | .exc => (.failing (q1 - 1), [.submit a.submitted, .waitJob])
        | .ok =>
          let r := phase1 rest (q1 - 1)
          (r.1, .submit a.submitted :: .waitJob :: r.2)

/-- How the drain loop `while not exec_queue.empty` (scheduler.py lines
129-135) ends. -/
inductive DrainEnd : Type
  | drained
  | interrupted
  | fuelOut (q : Nat)
deriving DecidableEq

/-- The drain loop: while the queue is non-empty, call `_wait_next_job`; a
`KeyboardInterrupt` is re-raised, any other `Exception` is logged and the
loop continues.  Records the trace of wait actions. -/
def drain : Nat → List WaitEv → DrainEnd × List Act
  | 0, _ => (.drained, [])
  | q + 1, [] => (.fuelOut (q + 1), [])
  | q + 1, e :: rest =>
    match e with
    | .intr => (.interrupted, [.waitJob])
    | _ =>
      let r := drain q rest
      (r.1, .waitJob :: r.2)

/-- Result of `Scheduler.run` as observed by the caller. -/
inductive RunResult : Type
  | alreadyRunning        -- the Exception raised by PipelineLock
  | success
  | pipelineFailed        -- PipelineException('pipeline failed')
  | interrupted           -- KeyboardInterrupt re-raised
  | modelStuck            -- oracle script exhausted (model artifact)
deriving DecidableEq

/-- Embeds `Scheduler.PipelineLock`'s acquisition (scheduler.py lines
174-180): `os.mkdir` of the lock directory fails iff it already exists, in
which case the context manager raises
`Exception('Pipeline already running, ...')`. -/
def pipeline_lock_acquire (dirs : List String) (lock_directory : String) :
    Except String (List String) :=
  if lock_directory ∈ dirs then
    .error ("Pipeline already running, remove " ++ lock_directory ++
      " to override")
  else .ok (lock_directory :: dirs)

/-- Embeds `os.rmdir` of the lock directory in the context manager's
`finally`. -/
def pipeline_lock_release (dirs : List String) (lock_directory : String) :
    List String :=
  dirs.erase lock_directory

/-- The body of `Scheduler.run` inside the `with self.PipelineLock()` block
(scheduler.py lines 116-141): run `phase1`; on `Exception` set `failing` and
drain; a `KeyboardInterrupt` from either loop is logged and re-raised; after
the drain, `failing` raises `PipelineException('pipeline failed')`. -/
def run_body (script : List (AddEv × WaitEv)) (drainScript : List WaitEv) :
    RunResult × List Act :=
  match phase1 script 0 with
  | (.completed, tr) => (.success, tr)
  | (.interrupted, tr) => (.interrupted, tr)
  | (.fuelOut _, tr) => (.modelStuck, tr)
  | (.failing q, tr) =>
    match drain q drainScript with
    | (.drained, tr2) => (.pipelineFailed, tr ++ tr2)
    | (.interrupted, tr2) => (.interrupted, tr ++ tr2)
    | (.fuelOut _, tr2) => (.modelStuck, tr ++ tr2)

/-- Embeds `Scheduler.run` (scheduler.py lines 107-141) at the level of the
lock and the control loop: acquire the lock directory `db_dir + "/lock"`,
run the body, and release the lock on every exit (the context manager's
`finally`).  Returns the caller-visible outcome, the action trace, and the
final set of directories. -/
def scheduler_run (dirs : List String) (db_dir : String)
    (script : List (AddEv × WaitEv)) (drainScript : List WaitEv) :
    RunResult × List Act × List String :=
  let lock_directory := db_dir ++ "/lock"
  match pipeline_lock_acquire dirs lock_directory with
  | .error _ => (.alreadyRunning, [], dirs)
  | .ok dirs' =>
    let r := run_body script drainScript
    (r.1, r.2, pipeline_lock_release dirs' lock_directory)

/-! ## Theorems -/

/-- Python 2 comparison is irreflexive, also through `None`. -/
theorem py2_lt_irrefl (a : Option Int) : py2_lt a a = false := by
  cases a with
  | none => rfl
  | some x => simp [py2_lt]

/-- C1: for a job whose input and output date lists are non-empty and all of
whose output creation times are known, `out_of_date` returns true iff the
maximum input creation time is strictly greater than the minimum output
creation time; in particular, when they are equal the job is not out of
date. -/
theorem out_of_date_iff_newest_input_newer (j : JobStaleness)
    (hi : j.input_dates ≠ []) (ho : j.output_dates ≠ [])
    (hk : none ∉ j.output_dates) :
    (out_of_date j = true ↔
      py2_lt (py_min_list j.output_dates) (py_max_list j.input_dates) = true) ∧
    (py_max_list j.input_dates = py_min_list j.output_dates →
      out_of_date j = false) := by
  have h1 : ¬(j.input_dates.length = 0 ∨ j.output_dates.length = 0) := by
    simp [List.length_eq_zero, hi, ho]
  constructor
  · unfold out_of_date
    rw [if_neg h1, if_neg hk]
  · intro he
    unfold out_of_date
    rw [if_neg h1, if_neg hk, he]
    exact py2_lt_irrefl _

/-- Concrete run of the C1 theorem: one input at time 2, one output at
time 1. -/
theorem out_of_date_iff_newest_input_newer_witness :
    (out_of_date ⟨[some 2], [some 1], false⟩ = true ↔
      py2_lt (py_min_list [some 1]) (py_max_list [some 2]) = true) ∧
    (py_max_list [some (2 : Int)] = py_min_list [some (1 : Int)] →
      out_of_date ⟨[some 2], [some 1], false⟩ = false) :=
  out_of_date_iff_newest_input_newer ⟨[some 2], [some 1], false⟩
    (by decide) (by decide) (by decide)

/-- C2: a job with no inputs, or no outputs, or some output with an unknown
(None) creation time is always out of date. -/
theorem out_of_date_always_run (j : JobStaleness)
    (h : j.input_dates = [] ∨ j.output_dates = [] ∨ none ∈ j.output_dates) :
    out_of_date j = true := by
  unfold out_of_date
  rcases h with h | h | h
  · rw [if_pos (Or.inl (by simp [h]))]
  · rw [if_pos (Or.inr (by simp [h]))]
  · by_cases h1 : j.input_dates.length = 0 ∨ j.output_dates.length = 0
    · rw [if_pos h1]
    · rw [if_neg h1, if_pos h]

/-- Concrete run of the C2 theorem: a job with an unknown output time. -/
theorem out_of_date_always_run_witness :
    out_of_date ⟨[some 3], [some 4, none], false⟩ = true :=
  out_of_date_always_run ⟨[some 3], [some 4, none], false⟩
    (Or.inr (Or.inr (by decide)))

/-- C3 counterexample: a job with one input at time 1 and one output at
time 2 (inputs older than outputs, all times known) whose
`is_required_downstream` flag is set is still reported as not out of date:
`out_of_date` never consults the flag. -/
theorem out_of_date_ignores_required_downstream :
    out_of_date ⟨[some 1], [some 2], true⟩ = false ∧
    (JobStaleness.mk [some 1] [some 2] true).is_required_downstream = true := by
  constructor
  · rfl
  · rfl

/-- C3 amended: for a job with non-empty inputs and outputs, all output times
known, and the newest input not newer than the oldest output, `out_of_date`
returns false regardless of `is_required_downstream`; the flag is instead
reflected by `explain_out_of_date`, whose headline is
"outputs required by downstream job" exactly when the flag is set, and
"up to date" otherwise. -/
theorem out_of_date_up_to_date_despite_required (j : JobStaleness)
    (hi : j.input_dates ≠ []) (ho : j.output_dates ≠ [])
    (hk : none ∉ j.output_dates)
    (hle : py2_lt (py_min_list j.output_dates) (py_max_list j.input_dates)
      = false) :
    out_of_date j = false ∧
    explain_out_of_date_headline j =
      (if j.is_required_downstream then "outputs required by downstream job"
       else "up to date") := by
  have hi0 : ¬j.input_dates.length = 0 := by simp [List.length_eq_zero, hi]
  have ho0 : ¬j.output_dates.length = 0 := by simp [List.length_eq_zero, ho]
  constructor
  · unfold out_of_date
    rw [if_neg (by simp [List.length_eq_zero, hi, ho]), if_neg hk]
    exact hle
  · unfold explain_out_of_date_headline
    rw [if_neg (by simp [List.length_eq_zero, hi]), if_neg hi0, if_neg ho0,
      if_neg hk, if_neg (by simp [hle])]

/-- Concrete run of the C3 amended theorem, with the flag set. -/
theorem out_of_date_up_to_date_despite_required_witness :
    out_of_date ⟨[some 1], [some 2], true⟩ = false ∧
    explain_out_of_date_headline ⟨[some 1], [some 2], true⟩ =
      (if (JobStaleness.mk [some 1] [some 2] true).is_required_downstream
       then "outputs required by downstream job" else "up to date") :=
  out_of_date_up_to_date_despite_required ⟨[some 1], [some 2], true⟩
    (by decide) (by decide) (by decide) (by decide)

/-- C10: `pop_if` returns `none` (Python raises `IndexError`, leaving the
list unchanged) exactly when no element satisfies the predicate; and when it
returns an element, that element is the first satisfying one, it is removed,
and all other elements keep their relative order. -/
theorem pop_if_first_match (α : Type) (L : List α) (pred : α → Bool) :
    (pop_if L pred = none ↔ ∀ x ∈ L, pred x = false) ∧
    (∀ x L', pop_if L pred = some (x, L') →
      ∃ l1 l2, L = l1 ++ x :: l2 ∧ L' = l1 ++ l2 ∧ pred x = true ∧
        ∀ y ∈ l1, pred y = false) := by
  induction L with
  | nil =>
    constructor
    · simp [pop_if]
    · intro x L' h
      simp [pop_if] at h
  | cons a as ih =>
    obtain ⟨ih1, ih2⟩ := ih
    cases hp : pred a with
    | true =>
      constructor
      · constructor
        · intro h
          simp [pop_if, hp] at h
        · intro h
          exact absurd (h a (List.mem_cons_self a as)) (by simp [hp])
      · intro x L' h
        simp only [pop_if, hp, if_pos, Option.some.injEq, Prod.mk.injEq] at h
        refine ⟨[], as, ?_, ?_, ?_, ?_⟩
        · simp [h.1]
        · simp [h.2]
        · rw [← h.1]; exact hp
        · intro y hy
          simp at hy
    | false =>
      have hpneg : ¬(pred a = true) := by simp [hp]
      constructor
      · rw [pop_if, if_neg hpneg, Option.map_eq_none', ih1]
        constructor
        · intro h x hx
          rcases List.mem_cons.mp hx with rfl | hx'
          · exact hp
          · exact h x hx'
        · intro h x hx
          exact h x (List.mem_cons_of_mem a hx)
      · intro x L' h
        rw [pop_if, if_neg hpneg, Option.map_eq_some'] at h
        obtain ⟨⟨y, ys⟩, hpop, heq⟩ := h
        have hy : y = x := congrArg Prod.fst heq
        have hys : a :: ys = L' := congrArg Prod.snd heq
        obtain ⟨l1, l2, hL, hL', hpx, hl1⟩ := ih2 y ys hpop
        refine ⟨a :: l1, l2, ?_, ?_, ?_, ?_⟩
        · rw [List.cons_append, ← hy, ← hL]
        · rw [← hys, hL', List.cons_append]
        · rw [← hy]; exact hpx
        · intro z hz
          rcases List.mem_cons.mp hz with rfl | hz'
          · exact hp
          · exact hl1 z hz'

/-- Concrete run of the C10 theorem: popping the first even number from
[1, 2, 3, 4]. -/
theorem pop_if_first_match_witness :
    (pop_if [1, 2, 3, 4] (fun x => decide (x % 2 = 0)) = none ↔
      ∀ x ∈ [1, 2, 3, 4], (fun x => decide (x % 2 = 0)) x = false) ∧
    (∀ x L', pop_if [1, 2, 3, 4] (fun x => decide (x % 2 = 0)) = some (x, L') →
      ∃ l1 l2, [1, 2, 3, 4] = l1 ++ x :: l2 ∧ L' = l1 ++ l2 ∧
        (fun x => decide (x % 2 = 0)) x = true ∧
        ∀ y ∈ l1, (fun x => decide (x % 2 = 0)) y = false) :=
  pop_if_first_match Nat [1, 2, 3, 4] (fun x => decide (x % 2 = 0))

/-- After erasing `name`, looking it up fails. -/
theorem fsLookup_fsErase_self (fs : FS) (name : String) :
    fsLookup (fsErase fs name) name = none := by
  induction fs with
  | nil => rfl
  | cons p rest ih =>
    obtain ⟨k, v⟩ := p
    by_cases hk : k = name
    · simp [fsErase, hk, ih]
    · simp [fsErase, fsLookup, hk, ih]

/-- Erasing `name` does not change the lookup of another filename. -/
theorem fsLookup_fsErase_ne (fs : FS) (name k : String) (h : k ≠ name) :
    fsLookup (fsErase fs name) k = fsLookup fs k := by
  induction fs with
  | nil => rfl
  | cons p rest ih =>
    obtain ⟨k', v⟩ := p
    by_cases hk : k' = name
    · have hk'' : ¬(k' = k) := by
        rw [hk]
        exact fun he => h he.symm
      rw [fsErase, if_pos hk, ih, fsLookup, if_neg hk'']
    · rw [fsErase, if_neg hk, fsLookup, fsLookup]
      by_cases hk2 : k' = k
      · rw [if_pos hk2, if_pos hk2]
      · rw [if_neg hk2, if_neg hk2, ih]

/-- C7: given a readable new file, `overwrite_if_different` leaves the
filesystem (in particular the existing file's data, mtime included) entirely
unchanged when the existing file is readable and the two digests agree, and
otherwise — digests differ, or the existing file is unreadable — renames the
new file over the existing one. -/
theorem overwrite_if_different_spec (md5 : List Nat → List Nat) (fs : FS)
    (new_filename existing_filename : String) (fd : FileData)
    (hnew : fsLookup fs new_filename = some fd)
    (hne : new_filename ≠ existing_filename) :
    (∀ fe, fsLookup fs existing_filename = some fe →
      md5 fe.contents = md5 fd.contents →
      overwrite_if_different md5 fs new_filename existing_filename
        = some fs) ∧
    ((fsLookup fs existing_filename = none ∨
      ∀ fe, fsLookup fs existing_filename = some fe →
        md5 fe.contents ≠ md5 fd.contents) →
      ∃ fs', overwrite_if_different md5 fs new_filename existing_filename
          = some fs' ∧
        fsLookup fs' existing_filename = some fd ∧
        fsLookup fs' new_filename = none) := by
  constructor
  · intro fe hfe heq
    simp [overwrite_if_different, md5_file, hfe, hnew, heq]
  · intro h
    have hrename : os_rename fs new_filename existing_filename
        = some ((existing_filename, fd) ::
            fsErase (fsErase fs new_filename) existing_filename) := by
      simp [os_rename, hnew]
    have hcopy : overwrite_if_different md5 fs new_filename existing_filename
        = os_rename fs new_filename existing_filename := by
      rcases h with h | h
      · simp [overwrite_if_different, md5_file, h]
      · cases he : fsLookup fs existing_filename with
        | none => simp [overwrite_if_different, md5_file, he]
        | some fe =>
          simp [overwrite_if_different, md5_file, he, hnew, h fe he]
    refine ⟨_, hcopy.trans hrename, ?_, ?_⟩
    · simp [fsLookup]
    · rw [fsLookup, if_neg (fun he => hne he.symm),
        fsLookup_fsErase_ne _ _ _ hne, fsLookup_fsErase_self]

/-- Concrete run of the C7 theorem: identical digests under the identity
digest function. -/
theorem overwrite_if_different_spec_witness :
    ((∀ fe, fsLookup [("new.tmp", ⟨[1, 2], 10⟩), ("out", ⟨[1, 2], 3⟩)] "out"
        = some fe →
      (fun l => l) fe.contents
        = (fun l => l) (FileData.mk [1, 2] 10).contents →
      overwrite_if_different (fun l => l)
        [("new.tmp", ⟨[1, 2], 10⟩), ("out", ⟨[1, 2], 3⟩)] "new.tmp" "out"
        = some [("new.tmp", ⟨[1, 2], 10⟩), ("out", ⟨[1, 2], 3⟩)]) ∧
    ((fsLookup [("new.tmp", ⟨[1, 2], 10⟩), ("out", ⟨[1, 2], 3⟩)] "out" = none ∨
      ∀ fe, fsLookup [("new.tmp", ⟨[1, 2], 10⟩), ("out", ⟨[1, 2], 3⟩)] "out"
          = some fe →
        (fun l => l) fe.contents
          ≠ (fun l => l) (FileData.mk [1, 2] 10).contents) →
      ∃ fs', overwrite_if_different (fun l => l)
          [("new.tmp", ⟨[1, 2], 10⟩), ("out", ⟨[1, 2], 3⟩)] "new.tmp" "out"
          = some fs' ∧
        fsLookup fs' "out" = some (FileData.mk [1, 2] 10) ∧
        fsLookup fs' "new.tmp" = none)) :=
  overwrite_if_different_spec (fun l => l)
    [("new.tmp", ⟨[1, 2], 10⟩), ("out", ⟨[1, 2], 3⟩)] "new.tmp" "out"
    (FileData.mk [1, 2] 10) (by decide) (by decide)

/-- C8: the lock directory `db_dir + "/lock"` is the mutual exclusion for
`Scheduler.run`: if it already exists the run reports
"Pipeline already running" and changes nothing; otherwise acquisition creates
exactly that directory, and after the run — whatever the body's outcome — the
directory set is restored, i.e. the lock is removed on every exit. -/
theorem pipeline_lock_spec (dirs : List String) (db_dir : String)
    (script : List (AddEv × WaitEv)) (drainScript : List WaitEv) :
    (db_dir ++ "/lock" ∈ dirs →
      scheduler_run dirs db_dir script drainScript
        = (RunResult.alreadyRunning, [], dirs) ∧
      pipeline_lock_acquire dirs (db_dir ++ "/lock")
        = .error ("Pipeline already running, remove " ++ (db_dir ++ "/lock")
            ++ " to override")) ∧
    (db_dir ++ "/lock" ∉ dirs →
      pipeline_lock_acquire dirs (db_dir ++ "/lock")
        = .ok ((db_dir ++ "/lock") :: dirs) ∧
      (scheduler_run dirs db_dir script drainScript).2.2 = dirs) := by
  constructor
  · intro h
    constructor
    · simp [scheduler_run, pipeline_lock_acquire, h]
    · simp [pipeline_lock_acquire, h]
  · intro h
    constructor
    · simp [pipeline_lock_acquire, h]
    · simp [scheduler_run, pipeline_lock_acquire, h, pipeline_lock_release]

/-- Concrete run of the C8 theorem. -/
theorem pipeline_lock_spec_witness :
    (("p" ++ "/lock") ∈ ["other"] →
      scheduler_run ["other"] "p" [] []
        = (RunResult.alreadyRunning, [], ["other"]) ∧
      pipeline_lock_acquire ["other"] ("p" ++ "/lock")
        = .error ("Pipeline already running, remove " ++ ("p" ++ "/lock")
            ++ " to override")) ∧
    (("p" ++ "/lock") ∉ ["other"] →
      pipeline_lock_acquire ["other"] ("p" ++ "/lock")
        = .ok (("p" ++ "/lock") :: ["other"]) ∧
      (scheduler_run ["other"] "p" [] []).2.2 = ["other"]) :=
  pipeline_lock_spec ["other"] "p" [] []

/-- C9: after `__init__` (simulated through the `__setattr__` guard itself),
assigning any attribute whose name does not start with an underscore and
which exists neither on the class nor on the instance raises
`AttributeError`, while every configuration attribute named in the claim can
be reassigned. -/
theorem scheduler_freeze_attributes :
    ∃ inst, scheduler_post_init = some inst ∧
      (∀ attr, py_startswith attr "_" = false →
        py_hasattr inst attr = false →
        scheduler_setattr inst attr = none) ∧
      (∀ attr ∈ ["max_jobs", "rerun", "repopulate", "cleanup", "prune",
          "db_dir", "temps_dir", "logs_dir"],
        ∃ inst', scheduler_setattr inst attr = some inst') := by
  refine ⟨["_logger", "max_jobs", "rerun", "repopulate", "cleanup", "prune",
      "_db_dir", "_temps_dir", "_logs_dir", "freeze"], by decide, ?_, ?_⟩
  · intro attr h1 h2
    have hfz : getattr_freeze ["_logger", "max_jobs", "rerun", "repopulate",
        "cleanup", "prune", "_db_dir", "_temps_dir", "_logs_dir", "freeze"]
        = true := by decide
    simp [scheduler_setattr, h1, h2, hfz]
  · intro attr hattr
    fin_cases hattr <;> exact ⟨_, rfl⟩

/-- C6 counterexample: a callable whose user function raised is received
unfinished, and `_wait_next_job` raises `IncompleteJobException` at once even
though the job still has retries left (`retry_idx = 0 < num_retry = 5`):
the scheduler never consults the retry budget. -/
theorem incomplete_raised_despite_retries_left :
    jobCall_finished ⟨true, true, false, true⟩ = false ∧
    wait_next_job (jobCall_finished ⟨true, true, false, true⟩)
      = WaitNextAction.raiseIncomplete ∧
    (0 : Int) < ctx_get [("num_retry", 5)] "num_retry" 0 := by
  refine ⟨rfl, rfl, ?_⟩
  decide

/-- C6 amended: `JobCallable.__call__` leaves `finished` true exactly when
resolve, pull, the user function and push all complete without exception, and
`Scheduler._wait_next_job` raises `IncompleteJobException` for a received
callable exactly when its `finished` flag is false — immediately, with no
retry path in this scheduler. -/
theorem jobcall_finished_and_incomplete (ev : CallEvents) (fin : Bool) :
    (jobCall_finished ev = true ↔
      ev.resolve_ok = true ∧ ev.pull_ok = true ∧ ev.func_ok = true ∧
        ev.push_ok = true) ∧
    (wait_next_job fin = WaitNextAction.raiseIncomplete ↔ fin = false) := by
  constructor
  · simp [jobCall_finished, Bool.and_eq_true, and_assoc]
  · cases fin <;> simp [wait_next_job]

/-- Concrete run of the C6 amended theorem. -/
theorem jobcall_finished_and_incomplete_witness :
    (jobCall_finished ⟨true, true, true, true⟩ = true ↔
      (CallEvents.mk true true true true).resolve_ok = true ∧
      (CallEvents.mk true true true true).pull_ok = true ∧
      (CallEvents.mk true true true true).func_ok = true ∧
      (CallEvents.mk true true true true).push_ok = true) ∧
    (wait_next_job false = WaitNextAction.raiseIncomplete ↔ false = false) :=
  jobcall_finished_and_incomplete ⟨true, true, true, true⟩ false

/-- A drain loop fed only completions (no interrupt) and enough of them runs
one wait per queued job and ends with the queue empty. -/
theorem drain_all_completions (q : Nat) (evs : List WaitEv)
    (hno : WaitEv.intr ∉ evs) (hlen : q ≤ evs.length) :
    drain q evs = (DrainEnd.drained, List.replicate q Act.waitJob) := by
  induction q generalizing evs with
  | zero => rfl
  | succ n ih =>
    cases evs with
    | nil => exact absurd hlen (by simp)
    | cons e rest =>
      have hno' : WaitEv.intr ∉ rest := fun h => hno (List.mem_cons_of_mem e h)
      have hlen' : n ≤ rest.length := Nat.le_of_succ_le_succ (by simpa using hlen)
      cases e with
      | intr => exact absurd (List.mem_cons_self _ _) hno
      | ok => simp [drain, ih rest hno' hlen', List.replicate_succ]
      | exc => simp [drain, ih rest hno' hlen', List.replicate_succ]

/-- C5: when the main loop of `Scheduler.run` ends with a caught `Exception`
(`failing = True`) leaving `q` jobs in the execution queue, and the remaining
jobs complete without interrupt, the scheduler performs exactly one wait per
remaining job and no further submission, and then raises
`PipelineException('pipeline failed')` to the caller (releasing the lock). -/
theorem scheduler_failure_drains_then_fails (dirs : List String)
    (db_dir : String) (script : List (AddEv × WaitEv))
    (drainScript : List WaitEv) (q : Nat) (tr : List Act)
    (hlock : db_dir ++ "/lock" ∉ dirs)
    (hfail : phase1 script 0 = (Phase1End.failing q, tr))
    (hno : WaitEv.intr ∉ drainScript) (hlen : q ≤ drainScript.length) :
    scheduler_run dirs db_dir script drainScript
      = (RunResult.pipelineFailed, tr ++ List.replicate q Act.waitJob, dirs) ∧
    (∀ n, Act.submit n ∉ List.replicate q Act.waitJob) := by
  constructor
  · simp [scheduler_run, pipeline_lock_acquire, hlock, run_body, hfail,
      drain_all_completions q drainScript hno hlen, pipeline_lock_release]
  · intro n h
    have := List.eq_of_mem_replicate h
    simp at this

/-- Concrete run of the C5 theorem: one job submitted, its wait raises, the
drain then waits for the one remaining queue entry and the run fails. -/
theorem scheduler_failure_drains_then_fails_witness :
    scheduler_run [] "db" [({ submitted := 2, raised := none }, WaitEv.exc)]
        [WaitEv.ok]
      = (RunResult.pipelineFailed,
          [Act.submit 2, Act.waitJob] ++ List.replicate 1 Act.waitJob, []) ∧
    (∀ n, Act.submit n ∉ List.replicate 1 Act.waitJob) :=
  scheduler_failure_drains_then_fails [] "db"
    [({ submitted := 2, raised := none }, WaitEv.exc)] [WaitEv.ok] 1
    [Act.submit 2, Act.waitJob] (by decide) (by decide) (by decide) (by decide)

/-- A key is in the dict iff its lookup succeeds. -/
theorem ctx_lookup_isSome_iff (ctx : Ctx) (k : String) :
    (ctx_lookup ctx k).isSome = true ↔ k ∈ ctx.map Prod.fst := by
  induction ctx with
  | nil => simp [ctx_lookup]
  | cons p rest ih =>
    obtain ⟨k', v⟩ := p
    by_cases hk : k' = k
    · simp [ctx_lookup, hk]
    · rw [ctx_lookup, if_neg hk]
      simp only [List.map_cons, List.mem_cons]
      rw [ih]
      constructor
      · exact Or.inr
      · rintro (he | hm)
        · exact absurd he.symm hk
        · exact hm

/-- Updating a value does not change the key sequence of the dict. -/
theorem ctx_set_keys (ctx : Ctx) (k : String) (v : Int) :
    (ctx_set ctx k v).map Prod.fst = ctx.map Prod.fst := by
  induction ctx with
  | nil => rfl
  | cons p rest ih =>
    obtain ⟨k', v'⟩ := p
    show (if k' = k then (k, v) else (k', v')).1 ::
        (ctx_set rest k v).map Prod.fst = k' :: rest.map Prod.fst
    by_cases hk : k' = k
    · rw [if_pos hk, ih, hk]
    · rw [if_neg hk, ih]

/-- Looking up the updated key of a present entry yields the new value. -/
theorem ctx_lookup_set_self (ctx : Ctx) (k : String) (v : Int)
    (h : k ∈ ctx.map Prod.fst) :
    ctx_lookup (ctx_set ctx k v) k = some v := by
  induction ctx with
  | nil => simp at h
  | cons p rest ih =>
    obtain ⟨k', v'⟩ := p
    show ctx_lookup ((if k' = k then (k, v) else (k', v')) :: ctx_set rest k v)
      k = some v
    by_cases hk : k' = k
    · rw [if_pos hk, ctx_lookup, if_pos rfl]
    · rw [if_neg hk, ctx_lookup, if_neg hk]
      apply ih
      have h' : k = k' ∨ k ∈ rest.map Prod.fst := by
        rw [List.map_cons] at h
        exact List.mem_cons.mp h
      rcases h' with he | hm
      · exact absurd he.symm hk
      · exact hm

/-- Updating one key leaves every other key's lookup unchanged. -/
theorem ctx_lookup_set_ne (ctx : Ctx) (k : String) (v : Int) (k' : String)
    (h : k' ≠ k) :
    ctx_lookup (ctx_set ctx k v) k' = ctx_lookup ctx k' := by
  induction ctx with
  | nil => rfl
  | cons p rest ih =>
    obtain ⟨a, b⟩ := p
    show ctx_lookup ((if a = k then (k, v) else (a, b)) :: ctx_set rest k v) k'
      = ctx_lookup ((a, b) :: rest) k'
    by_cases ha : a = k
    · rw [if_pos ha, ctx_lookup, ctx_lookup,
        if_neg (fun he => h he.symm), if_neg (fun he => h (ha ▸ he).symm)]
      exact ih
    · rw [if_neg ha, ctx_lookup, ctx_lookup]
      by_cases ha2 : a = k'
      · rw [if_pos ha2, if_pos ha2]
      · rw [if_neg ha2, if_neg ha2, ih]

/-- Invariant of the `retry` loop over a suffix `ks` of the dict's key
sequence: under the well-formedness conditions of `GoodCtx` restricted to
`ks`, the loop succeeds, reports an update iff some retry key is present,
multiplies each `<m>_retry_factor` base once, adds each
`<m>_retry_increment` base once, and leaves every other entry unchanged. -/
theorem retry_loop_spec (ks : List String) (ctx : Ctx) (u : Bool)
    (hnodup : ks.Nodup)
    (hks : ∀ k ∈ ks, k ∈ ctx.map Prod.fst)
    (hbase : ∀ k ∈ ks, isRetryKey k = true →
      retryBase k ∈ ctx.map Prod.fst ∧ isRetryKey (retryBase k) = false)
    (huniq : ∀ k ∈ ks, ∀ k' ∈ ks, isRetryKey k = true → isRetryKey k' = true →
      retryBase k = retryBase k' → k = k') :
    ∃ ctx', retry_loop ks ctx u = some (ctx', u || ks.any isRetryKey) ∧
      ctx'.map Prod.fst = ctx.map Prod.fst ∧
      (∀ key, (∀ sk ∈ ks, isRetryKey sk = true → retryBase sk ≠ key) →
        ctx_lookup ctx' key = ctx_lookup ctx key) ∧
      (∀ sk ∈ ks, py_endswith sk factorSuffix = true →
        ∀ v bv, ctx_lookup ctx sk = some v →
          ctx_lookup ctx (retryBase sk) = some bv →
          ctx_lookup ctx' (retryBase sk) = some (bv * v)) ∧
      (∀ sk ∈ ks, py_endswith sk factorSuffix = false →
        py_endswith sk incrementSuffix = true →
        ∀ v bv, ctx_lookup ctx sk = some v →
          ctx_lookup ctx (retryBase sk) = some bv →
          ctx_lookup ctx' (retryBase sk) = some (bv + v)) := by
  revert hnodup hks hbase huniq
  induction ks generalizing ctx u with
  | nil =>
    intro _ _ _ _
    exact ⟨ctx, by simp [retry_loop], rfl, fun _ _ => rfl, by simp, by simp⟩
  | cons k ks ih =>
    intro hnodup hks hbase huniq
    have hkim : k ∈ ctx.map Prod.fst := hks k (List.mem_cons_self k ks)
    obtain ⟨v, hv⟩ :=
      Option.isSome_iff_exists.mp ((ctx_lookup_isSome_iff ctx k).mpr hkim)
    have hnodup' : ks.Nodup := (List.nodup_cons.mp hnodup).2
    have hknotin : k ∉ ks := (List.nodup_cons.mp hnodup).1
    cases hf : py_endswith k factorSuffix with
    | true =>
      have hr : isRetryKey k = true := by simp [isRetryKey, hf]
      obtain ⟨hbm, hbnr⟩ := hbase k (List.mem_cons_self k ks) hr
      have hbeq : retryBase k = py_dropright k factorSuffix.data.length := by
        rw [retryBase, if_pos hf]
      obtain ⟨bv, hbv⟩ := Option.isSome_iff_exists.mp
        ((ctx_lookup_isSome_iff ctx (retryBase k)).mpr hbm)
      have hstepv : retry_step ctx k v
          = some (ctx_set ctx (retryBase k) (bv * v), true) := by
        rw [retry_step, if_pos hf]
        show (match ctx_lookup ctx (py_dropright k factorSuffix.data.length)
            with
          | none => none
          | some bv => some
              (ctx_set ctx (py_dropright k factorSuffix.data.length) (bv * v),
               true))
          = some (ctx_set ctx (retryBase k) (bv * v), true)
        rw [← hbeq, hbv]
      have hstep : retry_loop (k :: ks) ctx u
          = retry_loop ks (ctx_set ctx (retryBase k) (bv * v)) true := by
        simp only [retry_loop, hv, hstepv, Bool.or_true]
      have hF1 : ∀ sk ∈ ks, isRetryKey sk = true →
          retryBase sk ≠ retryBase k := by
        intro sk hsk hrs he
        exact hknotin ((huniq sk (List.mem_cons_of_mem k hsk) k
          (List.mem_cons_self k ks) hrs hr he) ▸ hsk)
      have hF2 : ∀ sk, isRetryKey sk = true → sk ≠ retryBase k := by
        intro sk hrs he
        rw [he, hbnr] at hrs
        cases hrs
      have hkeys1 : (ctx_set ctx (retryBase k) (bv * v)).map Prod.fst
          = ctx.map Prod.fst := ctx_set_keys ctx (retryBase k) (bv * v)
      obtain ⟨ctx', hloop, hkeys', ha, hb, hc⟩ :=
        ih (ctx_set ctx (retryBase k) (bv * v)) true hnodup'
          (fun k' h => by
            rw [hkeys1]; exact hks k' (List.mem_cons_of_mem k h))
          (fun k' h hr' => by
            obtain ⟨h1, h2⟩ := hbase k' (List.mem_cons_of_mem k h) hr'
            exact ⟨by rw [hkeys1]; exact h1, h2⟩)
          (fun a ha' b hb' h1 h2 h3 =>
            huniq a (List.mem_cons_of_mem k ha') b
              (List.mem_cons_of_mem k hb') h1 h2 h3)
      refine ⟨ctx', ?_, hkeys'.trans hkeys1, ?_, ?_, ?_⟩
      · rw [hstep, hloop]
        simp [List.any_cons, hr]
      · intro key hkey
        rw [ha key (fun sk hsk hrs =>
          hkey sk (List.mem_cons_of_mem k hsk) hrs)]
        exact ctx_lookup_set_ne ctx (retryBase k) (bv * v) key
          (fun he => hkey k (List.mem_cons_self k ks) hr he.symm)
      · intro sk hsk hfac v' bv' hv' hbv'
        rcases List.mem_cons.mp hsk with rfl | hsk'
        · have hvv : v' = v := by
            rw [hv] at hv'; exact (Option.some.injEq _ _ ▸ hv').symm
          have hbb : bv' = bv := by
            rw [hbv] at hbv'; exact (Option.some.injEq _ _ ▸ hbv').symm
          rw [ha (retryBase sk) hF1, hvv, hbb]
          exact ctx_lookup_set_self ctx (retryBase sk) (bv * v) hbm
        · have hrs : isRetryKey sk = true := by simp [isRetryKey, hfac]
          refine hb sk hsk' hfac v' bv' ?_ ?_
          · rw [ctx_lookup_set_ne ctx (retryBase k) (bv * v) sk
              (hF2 sk hrs)]
            exact hv'
          · rw [ctx_lookup_set_ne ctx (retryBase k) (bv * v) (retryBase sk)
              (hF1 sk hsk' hrs)]
            exact hbv'
      · intro sk hsk hfac0 hinc1 v' bv' hv' hbv'
        rcases List.mem_cons.mp hsk with rfl | hsk'
        · rw [hf] at hfac0
          cases hfac0
        · have hrs : isRetryKey sk = true := by
            simp [isRetryKey, hinc1]
          refine hc sk hsk' hfac0 hinc1 v' bv' ?_ ?_
          · rw [ctx_lookup_set_ne ctx (retryBase k) (bv * v) sk
              (hF2 sk hrs)]
            exact hv'
          · rw [ctx_lookup_set_ne ctx (retryBase k) (bv * v) (retryBase sk)
              (hF1 sk hsk' hrs)]
            exact hbv'
    | false =>
      cases hinc : py_endswith k incrementSuffix with
      | true =>
        have hr : isRetryKey k = true := by simp [isRetryKey, hf, hinc]
        obtain ⟨hbm, hbnr⟩ := hbase k (List.mem_cons_self k ks) hr
        have hbeq : retryBase k
            = py_dropright k incrementSuffix.data.length := by
          rw [retryBase, if_neg (by simp [hf])]
        obtain ⟨bv, hbv⟩ := Option.isSome_iff_exists.mp
          ((ctx_lookup_isSome_iff ctx (retryBase k)).mpr hbm)
        have hstepv : retry_step ctx k v
            = some (ctx_set ctx (retryBase k) (bv + v), true) := by
          rw [retry_step, if_neg (by simp [hf]), if_pos hinc]
          show (match ctx_lookup ctx
              (py_dropright k incrementSuffix.data.length) with
            | none => none
            | some bv => some
                (ctx_set ctx (py_dropright k incrementSuffix.data.length)
                  (bv + v), true))
            = some (ctx_set ctx (retryBase k) (bv + v), true)
          rw [← hbeq, hbv]
        have hstep : retry_loop (k :: ks) ctx u
            = retry_loop ks (ctx_set ctx (retryBase k) (bv + v)) true := by
          simp only [retry_loop, hv, hstepv, Bool.or_true]
        have hF1 : ∀ sk ∈ ks, isRetryKey sk = true →
            retryBase sk ≠ retryBase k := by
          intro sk hsk hrs he
          exact hknotin ((huniq sk (List.mem_cons_of_mem k hsk) k
            (List.mem_cons_self k ks) hrs hr he) ▸ hsk)
        have hF2 : ∀ sk, isRetryKey sk = true → sk ≠ retryBase k := by
          intro sk hrs he
          rw [he, hbnr] at hrs
          cases hrs
        have hkeys1 : (ctx_set ctx (retryBase k) (bv + v)).map Prod.fst
            = ctx.map Prod.fst := ctx_set_keys ctx (retryBase k) (bv + v)
        obtain ⟨ctx', hloop, hkeys', ha, hb, hc⟩ :=
          ih (ctx_set ctx (retryBase k) (bv + v)) true hnodup'
            (fun k' h => by
              rw [hkeys1]; exact hks k' (List.mem_cons_of_mem k h))
            (fun k' h hr' => by
              obtain ⟨h1, h2⟩ := hbase k' (List.mem_cons_of_mem k h) hr'
              exact ⟨by rw [hkeys1]; exact h1, h2⟩)
            (fun a ha' b hb' h1 h2 h3 =>
              huniq a (List.mem_cons_of_mem k ha') b
                (List.mem_cons_of_mem k hb') h1 h2 h3)
        refine ⟨ctx', ?_, hkeys'.trans hkeys1, ?_, ?_, ?_⟩
        · rw [hstep, hloop]
          simp [List.any_cons, hr]
        · intro key hkey
          rw [ha key (fun sk hsk hrs =>
            hkey sk (List.mem_cons_of_mem k hsk) hrs)]
          exact ctx_lookup_set_ne ctx (retryBase k) (bv + v) key
            (fun he => hkey k (List.mem_cons_self k ks) hr he.symm)
        · intro sk hsk hfac v' bv' hv' hbv'
          rcases List.mem_cons.mp hsk with rfl | hsk'
          · rw [hf] at hfac
            cases hfac
          · have hrs : isRetryKey sk = true := by simp [isRetryKey, hfac]
            refine hb sk hsk' hfac v' bv' ?_ ?_
            · rw [ctx_lookup_set_ne ctx (retryBase k) (bv + v) sk
                (hF2 sk hrs)]
              exact hv'
            · rw [ctx_lookup_set_ne ctx (retryBase k) (bv + v) (retryBase sk)
                (hF1 sk hsk' hrs)]
              exact hbv'
        · intro sk hsk hfac0 hinc1 v' bv' hv' hbv'
          rcases List.mem_cons.mp hsk with rfl | hsk'
          · have hvv : v' = v := by
              rw [hv] at hv'; exact (Option.some.injEq _ _ ▸ hv').symm
            have hbb : bv' = bv := by
              rw [hbv] at hbv'; exact (Option.some.injEq _ _ ▸ hbv').symm
            rw [ha (retryBase sk) hF1, hvv, hbb]
            exact ctx_lookup_set_self ctx (retryBase sk) (bv + v) hbm
          · have hrs : isRetryKey sk = true := by
              simp [isRetryKey, hinc1]
            refine hc sk hsk' hfac0 hinc1 v' bv' ?_ ?_
            · rw [ctx_lookup_set_ne ctx (retryBase k) (bv + v) sk
                (hF2 sk hrs)]
              exact hv'
            · rw [ctx_lookup_set_ne ctx (retryBase k) (bv + v) (retryBase sk)
                (hF1 sk hsk' hrs)]
              exact hbv'
      | false =>
        have hnr : isRetryKey k = false := by simp [isRetryKey, hf, hinc]
        have hstepv : retry_step ctx k v = some (ctx, false) := by
          rw [retry_step, if_neg (by simp [hf]), if_neg (by simp [hinc])]
        have hstep : retry_loop (k :: ks) ctx u = retry_loop ks ctx u := by
          simp only [retry_loop, hv, hstepv, Bool.or_false]
        obtain ⟨ctx', hloop, hkeys, ha, hb, hc⟩ := ih ctx u hnodup'
          (fun k' h => hks k' (List.mem_cons_of_mem k h))
          (fun k' h hr' => hbase k' (List.mem_cons_of_mem k h) hr')
          (fun a ha' b hb' h1 h2 h3 =>
            huniq a (List.mem_cons_of_mem k ha') b
              (List.mem_cons_of_mem k hb') h1 h2 h3)
        refine ⟨ctx', ?_, hkeys, ?_, ?_, ?_⟩
        · rw [hstep, hloop]
          simp [List.any_cons, hnr]
        · intro key hkey
          exact ha key (fun sk hsk hrs =>
            hkey sk (List.mem_cons_of_mem k hsk) hrs)
        · intro sk hsk hfac v' bv' hv' hbv'
          rcases List.mem_cons.mp hsk with rfl | hsk'
          · rw [hf] at hfac
            cases hfac
          · exact hb sk hsk' hfac v' bv' hv' hbv'
        · intro sk hsk hfac0 hinc1 v' bv' hv' hbv'
          rcases List.mem_cons.mp hsk with rfl | hsk'
          · rw [hinc] at hinc1
            cases hinc1
          · exact hc sk hsk' hfac0 hinc1 v' bv' hv' hbv'

/-- C4: for a well-formed context, `retry` returns false and leaves the state
unchanged once `retry_idx` has reached `ctx.get('num_retry', 0)`; otherwise
it increments `retry_idx`, multiplies each metric by its `_retry_factor`,
adds each `_retry_increment` to its metric, leaves every other entry
unchanged, and returns true iff at least one such retry key exists. -/
theorem retry_updates_and_reports (s : RetryState) (hgood : GoodCtx s.ctx) :
    (ctx_get s.ctx "num_retry" 0 ≤ s.retry_idx → retry s = some (false, s)) ∧
    (s.retry_idx < ctx_get s.ctx "num_retry" 0 →
      ∃ ctx', retry s
          = some ((s.ctx.map Prod.fst).any isRetryKey,
              ⟨s.retry_idx + 1, ctx'⟩) ∧
        ((s.ctx.map Prod.fst).any isRetryKey = true ↔
          ∃ k ∈ s.ctx.map Prod.fst, py_endswith k factorSuffix = true ∨
            py_endswith k incrementSuffix = true) ∧
        (∀ k ∈ s.ctx.map Prod.fst, py_endswith k factorSuffix = true →
          ∀ v bv, ctx_lookup s.ctx k = some v →
            ctx_lookup s.ctx (retryBase k) = some bv →
            ctx_lookup ctx' (retryBase k) = some (bv * v)) ∧
        (∀ k ∈ s.ctx.map Prod.fst, py_endswith k factorSuffix = false →
          py_endswith k incrementSuffix = true →
          ∀ v bv, ctx_lookup s.ctx k = some v →
            ctx_lookup s.ctx (retryBase k) = some bv →
            ctx_lookup ctx' (retryBase k) = some (bv + v)) ∧
        (∀ key, (∀ sk ∈ s.ctx.map Prod.fst, isRetryKey sk = true →
            retryBase sk ≠ key) →
          ctx_lookup ctx' key = ctx_lookup s.ctx key)) := by
  obtain ⟨hnodup, hbase, huniq⟩ := hgood
  constructor
  · intro h
    rw [retry, if_pos h]
  · intro h
    have hng : ¬(s.retry_idx ≥ ctx_get s.ctx "num_retry" 0) := not_le.mpr h
    obtain ⟨ctx', hloop, _, ha, hb, hc⟩ := retry_loop_spec
      (s.ctx.map Prod.fst) s.ctx false hnodup (fun _ h' => h') hbase huniq
    refine ⟨ctx', ?_, ?_, hb, hc, ha⟩
    · rw [retry, if_neg hng, hloop]
      rfl
    · rw [List.any_eq_true]
      constructor
      · rintro ⟨k, hk, hr⟩
        exact ⟨k, hk, by simpa [isRetryKey, Bool.or_eq_true] using hr⟩
      · rintro ⟨k, hk, hr⟩
        exact ⟨k, hk, by simpa [isRetryKey, Bool.or_eq_true] using hr⟩

/-- Concrete run of the C4 theorem: context
`{num_retry: 2, mem: 4, mem_retry_factor: 3}` at `retry_idx = 0`. -/
theorem retry_updates_and_reports_witness :
    GoodCtx [("num_retry", 2), ("mem", 4), ("mem_retry_factor", 3)] ∧
    ((ctx_get [("num_retry", 2), ("mem", 4), ("mem_retry_factor", 3)]
        "num_retry" 0 ≤ (0 : Int) →
      retry ⟨0, [("num_retry", 2), ("mem", 4), ("mem_retry_factor", 3)]⟩
        = some (false,
            ⟨0, [("num_retry", 2), ("mem", 4), ("mem_retry_factor", 3)]⟩)) ∧
    ((0 : Int) < ctx_get
        [("num_retry", 2), ("mem", 4), ("mem_retry_factor", 3)]
        "num_retry" 0 →
      ∃ ctx', retry
          ⟨0, [("num_retry", 2), ("mem", 4), ("mem_retry_factor", 3)]⟩
          = some ((["num_retry", "mem", "mem_retry_factor"].any isRetryKey),
              ⟨(0 : Int) + 1, ctx'⟩) ∧
        ((["num_retry", "mem", "mem_retry_factor"].any isRetryKey = true ↔
          ∃ k ∈ ["num_retry", "mem", "mem_retry_factor"],
            py_endswith k factorSuffix = true ∨
            py_endswith k incrementSuffix = true)) ∧
        (∀ k ∈ ["num_retry", "mem", "mem_retry_factor"],
          py_endswith k factorSuffix = true →
          ∀ v bv, ctx_lookup
              [("num_retry", 2), ("mem", 4), ("mem_retry_factor", 3)] k
              = some v →
            ctx_lookup
              [("num_retry", 2), ("mem", 4), ("mem_retry_factor", 3)]
              (retryBase k) = some bv →
            ctx_lookup ctx' (retryBase k) = some (bv * v)) ∧
        (∀ k ∈ ["num_retry", "mem", "mem_retry_factor"],
          py_endswith k factorSuffix = false →
          py_endswith k incrementSuffix = true →
          ∀ v bv, ctx_lookup
              [("num_retry", 2), ("mem", 4), ("mem_retry_factor", 3)] k
              = some v →
            ctx_lookup
              [("num_retry", 2), ("mem", 4), ("mem_retry_factor", 3)]
              (retryBase k) = some bv →
            ctx_lookup ctx' (retryBase k) = some (bv + v)) ∧
        (∀ key, (∀ sk ∈ ["num_retry", "mem", "mem_retry_factor"],
            isRetryKey sk = true → retryBase sk ≠ key) →
          ctx_lookup ctx' key = ctx_lookup
            [("num_retry", 2), ("mem", 4), ("mem_retry_factor", 3)] key))) :=
  ⟨by decide,
   retry_updates_and_reports
     ⟨0, [("num_retry", 2), ("mem", 4), ("mem_retry_factor", 3)]⟩
     (by decide)⟩

end Pypeliner
